import Mathlib

/-!
Verification of the snapshot projector in `src/server/src/rbx_snapshot.rs`.

The development shallowly embeds the Rust source into Lean:

* Filesystem paths (`std::path::PathBuf`) are lists of components
  (`FsPath := List String`); `FsPath::file_name` is the last component,
  `FsPath::extension` / `FsPath::file_stem` split the last component at its
  final dot following the documented Rust semantics.  Components are
  Lean strings, i.e. valid Unicode by construction (`OsStr` values that
  are not UTF-8 make the source panic in `to_str().expect(..)`; that
  corner is outside this model).
* `HashMap` / `HashSet` values are association lists / lists; `insert`
  is a shadowing cons, `get` finds the first matching key, which models
  `HashMap` insert-replaces semantics for the access patterns used here.
* Fallible code returns an explicit result type; `panic!`, `expect` and
  `unwrap` produce the `panics` outcome carrying the message.
* The mutually recursive filesystem walk (`snapshot_imfs_path`,
  `snapshot_imfs_item`, `snapshot_imfs_directory` and the child loop of
  the directory case) is embedded as one fuel-indexed structurally
  recursive dispatcher `imfsGo`; running out of fuel is the separate
  outcome `outOfGas`, distinct from every behaviour of the source.
* The source threads `metadata: &mut SnapshotMetadata` through every
  call.  Inside the filesystem family the table is only ever read
  (`sync_point_names.get` at lines 199 and 247); the single write
  (`insert`, line 141) happens in `snapshot_sync_point_node`.  The
  embedding therefore passes the table as a read-only argument to the
  filesystem family and threads it through the project-node family,
  where the write happens.
* Panic messages are kept close to the source but without apostrophes
  or backticks; only their distinctness matters to the proofs.
-/

/-- A filesystem path, as its list of components (`std::path::PathBuf`). -/
abbrev FsPath := List String

/-- Rust `FsPath::file_name`: the last component, if any. -/
def pathFileName (p : FsPath) : Option String := p.getLast?

/-- Split a list of characters at its last `'.'`, returning the parts
before and after it, or `none` when no dot occurs. -/
def splitLastDotChars : List Char → Option (List Char × List Char)
  | [] => none
  | ch :: rest =>
    match splitLastDotChars rest with
    | some (b, a) => some (ch :: b, a)
    | none => if ch = '.' then some ([], rest) else none

/-- Split a string at its last `'.'`. -/
def splitLastDot (s : String) : Option (String × String) :=
  match splitLastDotChars s.data with
  | none => none
  | some (b, a) => some (b.asString, a.asString)

/-- Rust `FsPath::extension` restricted to a file name: the part after the
last dot, unless there is no dot or the only dot starts the name. -/
def fileNameExtension (name : String) : Option String :=
  match splitLastDot name with
  | none => none
  | some (b, a) => if b = "" then none else some a

/-- Rust `FsPath::file_stem` restricted to a file name: the part before the
last dot, or the whole name when there is no dot or the name starts with
its only dot. -/
def fileNameStem (name : String) : Option String :=
  match splitLastDot name with
  | none => some name
  | some (b, _) => if b = "" then some name else some b

/-- Rust `FsPath::extension` on a path. -/
def pathExtension (p : FsPath) : Option String :=
  (pathFileName p).bind fileNameExtension

/-- Rust `FsPath::file_stem` on a path. -/
def pathFileStem (p : FsPath) : Option String :=
  (pathFileName p).bind fileNameStem

/-- `match_trailing` (rbx_snapshot.rs lines 290-297): when `input` ends
with `trailer`, the part of `input` before that suffix.  The source
slices off `trailer.len()` bytes; for a genuine suffix of valid UTF-8
this is the same as dropping `trailer` many trailing characters. -/
def match_trailing (input : String) (trailer : String) : Option String :=
  if trailer.data.isSuffixOf input.data then
    some ((input.data.take (input.data.length - trailer.data.length)).asString)
  else
    none

/-- Whether a byte is a UTF-8 continuation byte. -/
def utf8IsCont (b : Nat) : Bool := 0x80 ≤ b && b ≤ 0xBF

/-- `str::from_utf8` (strict UTF-8 validation and decoding), on bytes as
naturals: produces the decoded characters or `none` on invalid input. -/
def utf8DecodeChars : List Nat → Option (List Char)
  | [] => some []
  | b :: rest =>
    if b ≤ 0x7F then
      match utf8DecodeChars rest with
      | some cs => some (Char.ofNat b :: cs)
      | none => none
    else if 0xC2 ≤ b && b ≤ 0xDF then
      match rest with
      | b1 :: rest1 =>
        if utf8IsCont b1 then
          match utf8DecodeChars rest1 with
          | some cs => some (Char.ofNat ((b - 0xC0) * 64 + (b1 - 0x80)) :: cs)
          | none => none
        else none
      | [] => none
    else if 0xE0 ≤ b && b ≤ 0xEF then
      match rest with
      | b1 :: b2 :: rest2 =>
        let firstOk : Bool :=
          if b = 0xE0 then 0xA0 ≤ b1 && b1 ≤ 0xBF
          else if b = 0xED then 0x80 ≤ b1 && b1 ≤ 0x9F
          else utf8IsCont b1
        if firstOk && utf8IsCont b2 then
          match utf8DecodeChars rest2 with
          | some cs =>
            some (Char.ofNat ((b - 0xE0) * 4096 + (b1 - 0x80) * 64 + (b2 - 0x80)) :: cs)
          | none => none
        else none
      | _ => none
    else if 0xF0 ≤ b && b ≤ 0xF4 then
      match rest with
      | b1 :: b2 :: b3 :: rest3 =>
        let firstOk : Bool :=
          if b = 0xF0 then 0x90 ≤ b1 && b1 ≤ 0xBF
          else if b = 0xF4 then 0x80 ≤ b1 && b1 ≤ 0x8F
          else utf8IsCont b1
        if firstOk && utf8IsCont b2 && utf8IsCont b3 then
          match utf8DecodeChars rest3 with
          | some cs =>
            some (Char.ofNat
              ((b - 0xF0) * 262144 + (b1 - 0x80) * 4096 + (b2 - 0x80) * 64 + (b3 - 0x80)) :: cs)
          | none => none
        else none
      | _ => none
    else none

/-- `str::from_utf8` producing a string. -/
def utf8Decode (bytes : List Nat) : Option String :=
  (utf8DecodeChars bytes).map List.asString

/-- Property values (`rbx_tree::RbxValue`).  Only the `String` variant is
used by the decoders in this file; the source type is an open union. -/
inductive RbxValue where
  | string (value : String)
  deriving DecidableEq

/-- Modelled from the spec (section 3): the opaque metadata payload of a
manifest instance node (`InstanceProjectNode::metadata`; project.rs is
not under src/).  It is copied verbatim and never interpreted. -/
structure InstanceMetadata where
  blob : String
  deriving DecidableEq

/-- Modelled from the spec (section 3): the output instance
(`RbxSnapshotInstance`; snapshot_reconciler.rs is not under src/).
Fields are exactly the ones the spec lists and the source constructs. -/
structure Inst where
  name : String
  class_name : String
  properties : List (String × RbxValue)
  children : List Inst
  source_path : Option FsPath
  metadata : Option InstanceMetadata

/-- Modelled from the spec (section 6): a virtual filesystem file. -/
structure ImfsFile where
  path : FsPath
  contents : List Nat

/-- Modelled from the spec (section 6): a virtual filesystem directory;
`children` is stored as a set, embedded here as a list with a fixed
(hence deterministic) traversal order. -/
structure ImfsDirectory where
  path : FsPath
  children : List FsPath

/-- Modelled from the spec (section 6): a virtual filesystem item. -/
inductive ImfsItem where
  | file (f : ImfsFile)
  | directory (d : ImfsDirectory)

/-- The path of a filesystem item. -/
def ImfsItem.path : ImfsItem → FsPath
  | .file f => f.path
  | .directory d => d.path

/-- Modelled from the spec (section 6): the virtual filesystem, a pure
lookup from path to item (`Imfs::get`; imfs.rs is not under src/). -/
structure Imfs where
  items : List (FsPath × ImfsItem)

/-- `Imfs::get`: first entry with the requested path. -/
def Imfs.get (imfs : Imfs) (p : FsPath) : Option ImfsItem :=
  match imfs.items.find? (fun e => decide (e.1 = p)) with
  | some e => some e.2
  | none => none

/-- A virtual filesystem is well formed when every stored item carries
the path it is keyed by (the invariant maintained by imfs.rs). -/
def Imfs.WF (imfs : Imfs) : Prop :=
  ∀ p item, imfs.get p = some item → item.path = p

/-- The sync-point name table `SnapshotMetadata::sync_point_names`
(`HashMap<PathBuf, String>`), as an association list where later inserts
shadow earlier entries. -/
abbrev SyncNames := List (FsPath × String)

/-- `HashMap::get` on the sync-point name table. -/
def syncNamesGet (st : SyncNames) (p : FsPath) : Option String :=
  match st.find? (fun e => decide (e.1 = p)) with
  | some e => some e.2
  | none => none

/-- `HashMap::insert` on the sync-point name table. -/
def syncNamesInsert (st : SyncNames) (p : FsPath) (n : String) : SyncNames :=
  (p, n) :: st

/-- One row of a localization table as the csv crate deserializes it
(struct `LocalizationEntryCsv`): four fixed columns plus the flattened
per-locale values. -/
structure LocalizationEntryCsv where
  key : String
  context : String
  example_ : String
  source : String
  values : List (String × String)
  deriving DecidableEq

/-- One row as re-serialized to JSON (struct `LocalizationEntryJson`). -/
structure LocalizationEntryJson where
  key : String
  context : String
  example_ : String
  source : String
  values : List (String × String)
  deriving DecidableEq

/-- `LocalizationEntryCsv::to_json`: field-for-field conversion. -/
def LocalizationEntryCsv.to_json (e : LocalizationEntryCsv) : LocalizationEntryJson :=
  ⟨e.key, e.context, e.example_, e.source, e.values⟩

/-- The external codecs the source calls out to, abstracted as function
parameters; theorems quantify over them.

* `csvParse`: the csv crate reader plus row deserialization
  (`csv::Reader::deserialize`); `none` models a malformed row, which the
  source turns into a panic.
* `jsonEncode`: `serde_json::to_string` on the row list.
* `xmlDecode` / `binDecode`: `rbx_xml::decode` / `rbx_binary::decode`
  into a temporary tree under a synthetic root, composed with the
  per-child `snapshot_from_tree` conversion: a decode failure, or the
  list of the synthetic root's immediate children as instances. -/
structure Codecs where
  csvParse : List Nat → Option (List LocalizationEntryCsv)
  jsonEncode : List LocalizationEntryJson → String
  xmlDecode : List Nat → Except String (List Inst)
  binDecode : List Nat → Except String (List Inst)

/-- `SnapshotError` (rbx_snapshot.rs lines 43-62).  The `inner` payloads
of the Utf8 and decode errors are external diagnostics; the decode
errors keep them as opaque strings, the Utf8 error keeps only the path. -/
inductive SnapshotError where
  | didNotExist (path : FsPath)
  | utf8Error (path : FsPath)
  | xmlModelDecodeError (inner : String) (path : FsPath)
  | binaryModelDecodeError (inner : String) (path : FsPath)
  deriving DecidableEq

/-- Outcome of a snapshot function: `SnapshotResult = Result<Option..>`
plus the two outcomes outside the Rust value level: `panics` for
`panic! / expect / unwrap`, and `outOfGas` for fuel exhaustion of the
embedding (never a behaviour of the source). -/
inductive SnapResult where
  | ok (inst : Option Inst)
  | err (e : SnapshotError)
  | panics (msg : String)
  | outOfGas

/-- The message of the `Option::unwrap` panic used at rbx_snapshot.rs
lines 180-184. -/
def unwrapMsg : String := "called Option::unwrap on a None value"

def INIT_MODULE_NAME : String := "init.lua"
def INIT_SERVER_NAME : String := "init.server.lua"
def INIT_CLIENT_NAME : String := "init.client.lua"

/-- The shared tail of `snapshot_lua_file` (lines 270-287): decode the
contents as UTF-8 and build the script instance. -/
def snapshot_lua_contents (file : ImfsFile) (instance_name : String)
    (class_name : String) : SnapResult :=
  match utf8Decode file.contents with
  | none => .err (.utf8Error file.path)
  | some contents =>
    .ok (some
      { name := instance_name
        class_name := class_name
        properties := [("Source", RbxValue.string contents)]
        children := []
        source_path := some file.path
        metadata := none })

/-- `snapshot_lua_file` (lines 255-288): classify by trailing suffix,
server infix first, then client infix, else the whole file name with
class `ModuleScript`. -/
def snapshot_lua_file (file : ImfsFile) : SnapResult :=
  match pathFileName file.path with
  | none => .panics "Could not extract file stem"
  | some file_name =>
    match match_trailing file_name ".server.lua" with
    | some name => snapshot_lua_contents file name "Script"
    | none =>
      match match_trailing file_name ".client.lua" with
      | some name => snapshot_lua_contents file name "LocalScript"
      | none => snapshot_lua_contents file file_name "ModuleScript"

/-- `snapshot_txt_file` (lines 299-324). -/
def snapshot_txt_file (file : ImfsFile) : SnapResult :=
  match pathFileStem file.path with
  | none => .panics "Could not extract file stem"
  | some instance_name =>
    match utf8Decode file.contents with
    | none => .err (.utf8Error file.path)
    | some contents =>
      .ok (some
        { name := instance_name
          class_name := "StringValue"
          properties := [("Value", RbxValue.string contents)]
          children := []
          source_path := some file.path
          metadata := none })

/-- `snapshot_csv_file` (lines 326-355).  A malformed row makes the
source panic (`expect` on each deserialized record). -/
def snapshot_csv_file (c : Codecs) (file : ImfsFile) : SnapResult :=
  match pathFileStem file.path with
  | none => .panics "Could not extract file stem"
  | some instance_name =>
    match c.csvParse file.contents with
    | none => .panics "Malformed localization table found!"
    | some rows =>
      let table_contents := c.jsonEncode (rows.map LocalizationEntryCsv.to_json)
      .ok (some
        { name := instance_name
          class_name := "LocalizationTable"
          properties := [("Contents", RbxValue.string table_contents)]
          children := []
          source_path := some file.path
          metadata := none })

/-- The multi-root panic message of the two model-file decoders. -/
def multiRootMsg : String :=
  "Rojo does not have support for model files with multiple roots yet"

/-- `snapshot_xml_model_file` (lines 390-422): decode under a synthetic
root, then dispatch on the number of the root's children. -/
def snapshot_xml_model_file (c : Codecs) (file : ImfsFile) : SnapResult :=
  match pathFileStem file.path with
  | none => .panics "Could not extract file stem"
  | some instance_name =>
    match c.xmlDecode file.contents with
    | .error inner => .err (.xmlModelDecodeError inner file.path)
    | .ok children =>
      match children with
      | [] => .ok none
      | [child] => .ok (some { child with name := instance_name })
      | _ => .panics multiRootMsg

/-- `snapshot_binary_model_file` (lines 424-456). -/
def snapshot_binary_model_file (c : Codecs) (file : ImfsFile) : SnapResult :=
  match pathFileStem file.path with
  | none => .panics "Could not extract file stem"
  | some instance_name =>
    match c.binDecode file.contents with
    | .error inner => .err (.binaryModelDecodeError inner file.path)
    | .ok children =>
      match children with
      | [] => .ok none
      | [child] => .ok (some { child with name := instance_name })
      | _ => .panics multiRootMsg

/-- The extension dispatch of `snapshot_imfs_file` (lines 233-243,
computing `maybe_snapshot`): case-sensitive exact match on the
extension; unrecognized extensions and extension-less files yield no
instance. -/
def fileDispatch (c : Codecs) (file : ImfsFile) : SnapResult :=
  match pathExtension file.path with
  | some ext =>
    if ext = "lua" then snapshot_lua_file file
    else if ext = "csv" then snapshot_csv_file c file
    else if ext = "txt" then snapshot_txt_file file
    else if ext = "rbxmx" then snapshot_xml_model_file c file
    else if ext = "rbxm" then snapshot_binary_model_file c file
    else .ok none
  | none => .ok none

/-- `snapshot_imfs_file` (lines 229-253): dispatch on the extension,
then apply the sync-point name override for the file's exact path. -/
def snapshot_imfs_file (c : Codecs) (st : SyncNames) (file : ImfsFile) : SnapResult :=
  match fileDispatch c file with
  | .ok (some snapshot) =>
    match syncNamesGet st file.path with
    | some actual_name => .ok (some { snapshot with name := actual_name })
    | none => .ok (some snapshot)
  | other => other

/-- Requests of the fuel-indexed filesystem walk: project a path
(`snapshot_imfs_path`), project a directory (`snapshot_imfs_directory`
up to its name step), or run the child loop of the directory case
(lines 207-224) with the instance accumulated so far. -/
inductive ImfsReq where
  | path (p : FsPath)
  | directory (d : ImfsDirectory)
  | childrenFold (snap : Inst) (ps : List FsPath)

/-- The mutually recursive filesystem walk of rbx_snapshot.rs
(lines 146-227), as one structurally recursive function on fuel.

* `.path p` is `snapshot_imfs_path` (lines 146-157) with the item
  dispatch of `snapshot_imfs_item` (lines 159-168) inlined;
* `.directory d` is `snapshot_imfs_directory` (lines 170-227): the
  init-file adoption (the `?.unwrap()` on the projected init file
  panics when that projection yields no instance), the unconditional
  name assignment (lines 196-205), then the child loop;
* `.childrenFold snap ps` is the loop at lines 207-224: children whose
  file name is one of the three init names are skipped, the others are
  projected and appended when they yield an instance. -/
def imfsGo : Nat → Codecs → Imfs → SyncNames → ImfsReq → SnapResult
  | 0, _, _, _, _ => .outOfGas
  | g + 1, c, imfs, st, req =>
    match req with
    | .path p =>
      match imfs.get p with
      | some (ImfsItem.file f) => snapshot_imfs_file c st f
      | some (ImfsItem.directory d) => imfsGo g c imfs st (.directory d)
      | none => .err (.didNotExist p)
    | .directory d =>
      let init_path := d.path ++ [INIT_MODULE_NAME]
      let init_server_path := d.path ++ [INIT_SERVER_NAME]
      let init_client_path := d.path ++ [INIT_CLIENT_NAME]
      let adopted : SnapResult :=
        if d.children.contains init_path then
          imfsGo g c imfs st (.path init_path)
        else if d.children.contains init_server_path then
          imfsGo g c imfs st (.path init_server_path)
        else if d.children.contains init_client_path then
          imfsGo g c imfs st (.path init_client_path)
        else
          .ok (some
            { name := ""
              class_name := "Folder"
              properties := []
              children := []
              source_path := some d.path
              metadata := none })
      match adopted with
      | .ok (some snapshot) =>
        match syncNamesGet st d.path with
        | some actual_name =>
          imfsGo g c imfs st (.childrenFold { snapshot with name := actual_name } d.children)
        | none =>
          match pathFileName d.path with
          | some derived_name =>
            imfsGo g c imfs st (.childrenFold { snapshot with name := derived_name } d.children)
          | none => .panics "Could not extract file name"
      | .ok none => .panics unwrapMsg
      | other => other
    | .childrenFold snap ps =>
      match ps with
      | [] => .ok (some snap)
      | child_path :: rest =>
        match pathFileName child_path with
        | none => .panics "Could not extract file name of child"
        | some child_name =>
          if child_name = INIT_MODULE_NAME ∨ child_name = INIT_SERVER_NAME ∨
              child_name = INIT_CLIENT_NAME then
            imfsGo g c imfs st (.childrenFold snap rest)
          else
            match imfsGo g c imfs st (.path child_path) with
            | .ok (some child) =>
              imfsGo g c imfs st
                (.childrenFold { snap with children := snap.children ++ [child] } rest)
            | .ok none => imfsGo g c imfs st (.childrenFold snap rest)
            | other => other

/-- `snapshot_imfs_path` (lines 146-157), at a given amount of fuel. -/
def snapshot_imfs_path (gas : Nat) (c : Codecs) (imfs : Imfs) (st : SyncNames)
    (p : FsPath) : SnapResult :=
  imfsGo gas c imfs st (.path p)

/-- `snapshot_imfs_item` (lines 159-168): dispatch on the item variant. -/
def snapshot_imfs_item (gas : Nat) (c : Codecs) (imfs : Imfs) (st : SyncNames)
    (item : ImfsItem) : SnapResult :=
  match item with
  | .file f => snapshot_imfs_file c st f
  | .directory d => imfsGo gas c imfs st (.directory d)

/-- `snapshot_imfs_directory` (lines 170-227), at a given fuel. -/
def snapshot_imfs_directory (gas : Nat) (c : Codecs) (imfs : Imfs) (st : SyncNames)
    (d : ImfsDirectory) : SnapResult :=
  imfsGo gas c imfs st (.directory d)

/-- The child loop of `snapshot_imfs_directory` (lines 207-224). -/
def snapshot_imfs_directory_children (gas : Nat) (c : Codecs) (imfs : Imfs)
    (st : SyncNames) (snap : Inst) (ps : List FsPath) : SnapResult :=
  imfsGo gas c imfs st (.childrenFold snap ps)

/-- Modelled from the spec (sections 3 and 6): a manifest node
(`ProjectNode`; project.rs is not under src/): an instance node with
class name, ordered named children, property bag and metadata, or a
sync point carrying a filesystem path. -/
inductive ProjectNode where
  | instanceNode (class_name : String) (children : List (String × ProjectNode))
      (properties : List (String × RbxValue)) (md : InstanceMetadata)
  | syncPoint (path : FsPath)

/-- Result of projecting a manifest node: the optional instance plus
the sync-point name table after the call (the table is mutated by
sync-point nodes). -/
inductive ProjResult where
  | ok (inst : Option Inst) (st : SyncNames)
  | err (e : SnapshotError)
  | panics (msg : String)
  | outOfGas

/-- Result of projecting the children of an instance node: the
projected child instances plus the table after the loop. -/
inductive ChildrenRes where
  | ok (children : List Inst) (st : SyncNames)
  | err (e : SnapshotError)
  | panics (msg : String)
  | outOfGas

/-- `snapshot_sync_point_node` (lines 125-144): project the referenced
path; on no instance, propagate; otherwise overwrite the name with the
manifest-supplied one and only then record the override in the table. -/
def snapshot_sync_point_node (gas : Nat) (c : Codecs) (imfs : Imfs) (st : SyncNames)
    (path : FsPath) (instance_name : String) : ProjResult :=
  match snapshot_imfs_path gas c imfs st path with
  | .ok none => .ok none st
  | .ok (some snapshot) =>
    .ok (some { snapshot with name := instance_name })
      (syncNamesInsert st path instance_name)
  | .err e => .err e
  | .panics m => .panics m
  | .outOfGas => .outOfGas

mutual

/-- `snapshot_project_node` (lines 89-99): dispatch on the manifest
node variant. -/
def snapshot_project_node (gas : Nat) (c : Codecs) (imfs : Imfs) (st : SyncNames)
    (node : ProjectNode) (instance_name : String) : ProjResult :=
  match node with
  | .instanceNode class_name children properties md =>
    snapshot_instance_node gas c imfs st class_name children properties md instance_name
  | .syncPoint path => snapshot_sync_point_node gas c imfs st path instance_name

/-- `snapshot_instance_node` (lines 101-123): project the named
children in manifest order, then wrap class name, properties and
metadata with the supplied instance name. -/
def snapshot_instance_node (gas : Nat) (c : Codecs) (imfs : Imfs) (st : SyncNames)
    (class_name : String) (children : List (String × ProjectNode))
    (properties : List (String × RbxValue)) (md : InstanceMetadata)
    (instance_name : String) : ProjResult :=
  match snapshot_instance_children gas c imfs st children with
  | .ok kids st1 =>
    .ok (some
      { name := instance_name
        class_name := class_name
        properties := properties
        children := kids
        source_path := none
        metadata := some md }) st1
  | .err e => .err e
  | .panics m => .panics m
  | .outOfGas => .outOfGas

/-- The child loop of `snapshot_instance_node` (lines 109-113):
children yielding no instance are omitted, the rest keep manifest
order; the table threads left to right. -/
def snapshot_instance_children (gas : Nat) (c : Codecs) (imfs : Imfs) (st : SyncNames) :
    List (String × ProjectNode) → ChildrenRes
  | [] => .ok [] st
  | (child_name, child_node) :: rest =>
    match snapshot_project_node gas c imfs st child_node child_name with
    | .ok (some child) st1 =>
      match snapshot_instance_children gas c imfs st1 rest with
      | .ok kids st2 => .ok (child :: kids) st2
      | .err e => .err e
      | .panics m => .panics m
      | .outOfGas => .outOfGas
    | .ok none st1 => snapshot_instance_children gas c imfs st1 rest
    | .err e => .err e
    | .panics m => .panics m
    | .outOfGas => .outOfGas

end

mutual

/-- Whether a manifest subtree contains no sync-point node. -/
def noSyncPoints : ProjectNode → Bool
  | .syncPoint _ => false
  | .instanceNode _ children _ _ => noSyncPointsList children

/-- `noSyncPoints` on a child list. -/
def noSyncPointsList : List (String × ProjectNode) → Bool
  | [] => true
  | (_, n) :: rest => noSyncPoints n && noSyncPointsList rest

end

/-! ### Helper lemmas about the decoders -/

theorem snapshot_lua_contents_ok (f : ImfsFile) (iname cname : String) (r : Option Inst)
    (h : snapshot_lua_contents f iname cname = .ok r) : ∃ i, r = some i := by
  unfold snapshot_lua_contents at h
  split at h
  · exact absurd h (by simp)
  · exact ⟨_, by injection h with h'; exact h'.symm⟩

theorem snapshot_lua_contents_err (f : ImfsFile) (iname cname : String) (e : SnapshotError)
    (h : snapshot_lua_contents f iname cname = .err e) : e = .utf8Error f.path := by
  unfold snapshot_lua_contents at h
  split at h
  · injection h with h'; exact h'.symm
  · exact absurd h (by simp)

theorem snapshot_lua_contents_panics (f : ImfsFile) (iname cname : String) (m : String)
    (h : snapshot_lua_contents f iname cname = .panics m) : False := by
  unfold snapshot_lua_contents at h
  split at h <;> exact absurd h (by simp)

theorem snapshot_lua_file_ok (f : ImfsFile) (r : Option Inst)
    (h : snapshot_lua_file f = .ok r) : ∃ i, r = some i := by
  unfold snapshot_lua_file at h
  repeat' split at h
  · exact absurd h (by simp)
  all_goals exact snapshot_lua_contents_ok f _ _ r h

theorem snapshot_txt_file_ok (f : ImfsFile) (r : Option Inst)
    (h : snapshot_txt_file f = .ok r) : ∃ i, r = some i := by
  unfold snapshot_txt_file at h
  split at h
  · exact absurd h (by simp)
  · split at h
    · exact absurd h (by simp)
    · exact ⟨_, by injection h with h'; exact h'.symm⟩

theorem snapshot_csv_file_ok (c : Codecs) (f : ImfsFile) (r : Option Inst)
    (h : snapshot_csv_file c f = .ok r) : ∃ i, r = some i := by
  unfold snapshot_csv_file at h
  split at h
  · exact absurd h (by simp)
  · split at h
    · exact absurd h (by simp)
    · exact ⟨_, by injection h with h'; exact h'.symm⟩

theorem snapshot_lua_file_err (f : ImfsFile) (e : SnapshotError)
    (h : snapshot_lua_file f = .err e) : e = .utf8Error f.path := by
  unfold snapshot_lua_file at h
  repeat' split at h
  · exact absurd h (by simp)
  all_goals exact snapshot_lua_contents_err f _ _ e h

theorem snapshot_txt_file_err (f : ImfsFile) (e : SnapshotError)
    (h : snapshot_txt_file f = .err e) : e = .utf8Error f.path := by
  unfold snapshot_txt_file at h
  split at h
  · exact absurd h (by simp)
  · split at h
    · injection h with h'; exact h'.symm
    · exact absurd h (by simp)

theorem snapshot_csv_file_err (c : Codecs) (f : ImfsFile) (e : SnapshotError)
    (h : snapshot_csv_file c f = .err e) : False := by
  unfold snapshot_csv_file at h
  split at h
  · exact absurd h (by simp)
  · split at h <;> exact absurd h (by simp)

theorem snapshot_xml_model_file_err (c : Codecs) (f : ImfsFile) (e : SnapshotError)
    (h : snapshot_xml_model_file c f = .err e) :
    ∃ inner, e = .xmlModelDecodeError inner f.path := by
  unfold snapshot_xml_model_file at h
  split at h
  · exact absurd h (by simp)
  · split at h
    · exact ⟨_, by injection h with h'; exact h'.symm⟩
    · split at h <;> exact absurd h (by simp)

theorem snapshot_binary_model_file_err (c : Codecs) (f : ImfsFile) (e : SnapshotError)
    (h : snapshot_binary_model_file c f = .err e) :
    ∃ inner, e = .binaryModelDecodeError inner f.path := by
  unfold snapshot_binary_model_file at h
  split at h
  · exact absurd h (by simp)
  · split at h
    · exact ⟨_, by injection h with h'; exact h'.symm⟩
    · split at h <;> exact absurd h (by simp)

theorem snapshot_lua_file_panics (f : ImfsFile) (m : String)
    (h : snapshot_lua_file f = .panics m) : m = "Could not extract file stem" := by
  unfold snapshot_lua_file at h
  repeat' split at h
  · injection h with h'; exact h'.symm
  all_goals exact absurd (snapshot_lua_contents_panics f _ _ m h) (by simp)

theorem snapshot_txt_file_panics (f : ImfsFile) (m : String)
    (h : snapshot_txt_file f = .panics m) : m = "Could not extract file stem" := by
  unfold snapshot_txt_file at h
  split at h
  · injection h with h'; exact h'.symm
  · split at h <;> exact absurd h (by simp)

theorem snapshot_csv_file_panics (c : Codecs) (f : ImfsFile) (m : String)
    (h : snapshot_csv_file c f = .panics m) :
    m = "Could not extract file stem" ∨ m = "Malformed localization table found!" := by
  unfold snapshot_csv_file at h
  split at h
  · exact .inl (by injection h with h'; exact h'.symm)
  · split at h
    · exact .inr (by injection h with h'; exact h'.symm)
    · exact absurd h (by simp)

theorem snapshot_xml_model_file_panics (c : Codecs) (f : ImfsFile) (m : String)
    (h : snapshot_xml_model_file c f = .panics m) :
    m = "Could not extract file stem" ∨ m = multiRootMsg := by
  unfold snapshot_xml_model_file at h
  split at h
  · exact .inl (by injection h with h'; exact h'.symm)
  · split at h
    · exact absurd h (by simp)
    · split at h
      · exact absurd h (by simp)
      · exact absurd h (by simp)
      · exact .inr (by injection h with h'; exact h'.symm)

theorem snapshot_binary_model_file_panics (c : Codecs) (f : ImfsFile) (m : String)
    (h : snapshot_binary_model_file c f = .panics m) :
    m = "Could not extract file stem" ∨ m = multiRootMsg := by
  unfold snapshot_binary_model_file at h
  split at h
  · exact .inl (by injection h with h'; exact h'.symm)
  · split at h
    · exact absurd h (by simp)
    · split at h
      · exact absurd h (by simp)
      · exact absurd h (by simp)
      · exact .inr (by injection h with h'; exact h'.symm)

/-! ### Unfolding helpers for the filesystem walk -/

/-- The bare Folder-equivalent instance a directory without init files
synthesizes (lines 186-193). -/
def folderInst (d : ImfsDirectory) : Inst :=
  { name := ""
    class_name := "Folder"
    properties := []
    children := []
    source_path := some d.path
    metadata := none }

/-- The init-file adoption step of the directory case (lines 175-194):
module init first, then server init, then client init, else the bare
folder.  (The `unwrap` of the source is applied by `dirFinish`.) -/
def dirAdopted (g : Nat) (c : Codecs) (imfs : Imfs) (st : SyncNames)
    (d : ImfsDirectory) : SnapResult :=
  if d.children.contains (d.path ++ [INIT_MODULE_NAME]) then
    imfsGo g c imfs st (.path (d.path ++ [INIT_MODULE_NAME]))
  else if d.children.contains (d.path ++ [INIT_SERVER_NAME]) then
    imfsGo g c imfs st (.path (d.path ++ [INIT_SERVER_NAME]))
  else if d.children.contains (d.path ++ [INIT_CLIENT_NAME]) then
    imfsGo g c imfs st (.path (d.path ++ [INIT_CLIENT_NAME]))
  else
    .ok (some (folderInst d))

/-- The rest of the directory case given the adoption result: the
`unwrap` (panics when the adopted projection produced no instance), the
unconditional name assignment (lines 196-205), and the child loop. -/
def dirFinish (g : Nat) (c : Codecs) (imfs : Imfs) (st : SyncNames)
    (d : ImfsDirectory) (adopted : SnapResult) : SnapResult :=
  match adopted with
  | .ok (some snapshot) =>
    match syncNamesGet st d.path with
    | some actual_name =>
      imfsGo g c imfs st (.childrenFold { snapshot with name := actual_name } d.children)
    | none =>
      match pathFileName d.path with
      | some derived_name =>
        imfsGo g c imfs st (.childrenFold { snapshot with name := derived_name } d.children)
      | none => .panics "Could not extract file name"
  | .ok none => .panics unwrapMsg
  | other => other

theorem imfsGo_path_eq (g : Nat) (c : Codecs) (imfs : Imfs) (st : SyncNames) (p : FsPath) :
    imfsGo (g + 1) c imfs st (.path p) =
      (match imfs.get p with
       | some (ImfsItem.file f) => snapshot_imfs_file c st f
       | some (ImfsItem.directory d) => imfsGo g c imfs st (.directory d)
       | none => .err (.didNotExist p)) := rfl

theorem imfsGo_directory_eq (g : Nat) (c : Codecs) (imfs : Imfs) (st : SyncNames)
    (d : ImfsDirectory) :
    imfsGo (g + 1) c imfs st (.directory d) =
      dirFinish g c imfs st d (dirAdopted g c imfs st d) := rfl

theorem imfsGo_childrenFold_nil (g : Nat) (c : Codecs) (imfs : Imfs) (st : SyncNames)
    (snap : Inst) :
    imfsGo (g + 1) c imfs st (.childrenFold snap []) = .ok (some snap) := rfl

theorem imfsGo_childrenFold_cons (g : Nat) (c : Codecs) (imfs : Imfs) (st : SyncNames)
    (snap : Inst) (p : FsPath) (rest : List FsPath) :
    imfsGo (g + 1) c imfs st (.childrenFold snap (p :: rest)) =
      (match pathFileName p with
       | none => .panics "Could not extract file name of child"
       | some child_name =>
         if child_name = INIT_MODULE_NAME ∨ child_name = INIT_SERVER_NAME ∨
             child_name = INIT_CLIENT_NAME then
           imfsGo g c imfs st (.childrenFold snap rest)
         else
           match imfsGo g c imfs st (.path p) with
           | .ok (some child) =>
             imfsGo g c imfs st
               (.childrenFold { snap with children := snap.children ++ [child] } rest)
           | .ok none => imfsGo g c imfs st (.childrenFold snap rest)
           | other => other) := rfl

/-! ### Structural lemmas about the filesystem walk -/

/-- The child loop only ever appends to the accumulated instance's
children; every other field survives untouched, and a successful loop
always returns an instance. -/
theorem childrenFold_ok (gas : Nat) (c : Codecs) (imfs : Imfs) :
    ∀ (st : SyncNames) (snap : Inst) (ps : List FsPath) (r : Option Inst),
    imfsGo gas c imfs st (.childrenFold snap ps) = .ok r →
    ∃ inst, r = some inst ∧ inst.name = snap.name ∧
      inst.class_name = snap.class_name ∧ inst.properties = snap.properties ∧
      inst.source_path = snap.source_path ∧ inst.metadata = snap.metadata ∧
      ∃ extra, inst.children = snap.children ++ extra := by
  induction gas with
  | zero => intro st snap ps r h; exact absurd h (by simp [imfsGo])
  | succ g ih =>
    intro st snap ps r h
    match ps with
    | [] =>
      rw [imfsGo_childrenFold_nil] at h
      injection h with h'
      exact ⟨snap, h'.symm, rfl, rfl, rfl, rfl, rfl, [], by simp⟩
    | p :: rest =>
      rw [imfsGo_childrenFold_cons] at h
      split at h
      · exact absurd h (by simp)
      · split at h
        · exact ih st snap rest r h
        · split at h
          · rename_i child hchild
            obtain ⟨inst, hr, hn, hc, hp, hs, hm, extra, hkids⟩ := ih st _ rest r h
            exact ⟨inst, hr, hn, hc, hp, hs, hm, child :: extra, by simp [hkids]⟩
          · exact ih st snap rest r h
          · rename_i hns hnn
            cases r with
            | none => exact absurd h hnn
            | some s => exact absurd h (hns s)

theorem pathFileName_append (xs : List String) (y : String) :
    pathFileName (xs ++ [y]) = some y :=
  List.getLast?_concat xs

/-- A successful directory projection always yields an instance, whose
class name, properties, source path and metadata are adopted from the
init projection (or the synthesized folder), whose children extend the
adopted children, and whose name is the sync-point override for the
directory's path when present, else the last path component. -/
theorem dirFinish_ok (g : Nat) (c : Codecs) (imfs : Imfs) (st : SyncNames)
    (d : ImfsDirectory) (adopted : SnapResult) (r : Option Inst)
    (h : dirFinish g c imfs st d adopted = .ok r) :
    ∃ ii inst, adopted = .ok (some ii) ∧ r = some inst ∧
      inst.class_name = ii.class_name ∧ inst.properties = ii.properties ∧
      inst.source_path = ii.source_path ∧ inst.metadata = ii.metadata ∧
      (∃ extra, inst.children = ii.children ++ extra) ∧
      ((∃ n, syncNamesGet st d.path = some n ∧ inst.name = n) ∨
       (syncNamesGet st d.path = none ∧ pathFileName d.path = some inst.name)) := by
  unfold dirFinish at h
  split at h
  · rename_i snapshot
    split at h
    · rename_i actual hget
      obtain ⟨inst, hr, hn, hc, hp, hs, hm, extra, hkids⟩ :=
        childrenFold_ok g c imfs st _ d.children r h
      exact ⟨snapshot, inst, rfl, hr, hc, hp, hs, hm, ⟨extra, hkids⟩,
        .inl ⟨actual, hget, hn⟩⟩
    · rename_i hget
      split at h
      · rename_i derived hfn
        obtain ⟨inst, hr, hn, hc, hp, hs, hm, extra, hkids⟩ :=
          childrenFold_ok g c imfs st _ d.children r h
        exact ⟨snapshot, inst, rfl, hr, hc, hp, hs, hm, ⟨extra, hkids⟩,
          .inr ⟨hget, by rw [hn]; exact hfn⟩⟩
      · exact absurd h (by simp)
  · exact absurd h (by simp)
  · rename_i hns hnn
    cases r with
    | none => exact absurd h hnn
    | some s => exact absurd h (hns s)

theorem dirAdopted_module (g : Nat) (c : Codecs) (imfs : Imfs) (st : SyncNames)
    (d : ImfsDirectory)
    (h : d.children.contains (d.path ++ [INIT_MODULE_NAME]) = true) :
    dirAdopted g c imfs st d =
      imfsGo g c imfs st (.path (d.path ++ [INIT_MODULE_NAME])) := by
  replace h : d.path ++ [INIT_MODULE_NAME] ∈ d.children := by simpa using h
  simp [dirAdopted, h]

theorem dirAdopted_server (g : Nat) (c : Codecs) (imfs : Imfs) (st : SyncNames)
    (d : ImfsDirectory)
    (hm : d.children.contains (d.path ++ [INIT_MODULE_NAME]) = false)
    (h : d.children.contains (d.path ++ [INIT_SERVER_NAME]) = true) :
    dirAdopted g c imfs st d =
      imfsGo g c imfs st (.path (d.path ++ [INIT_SERVER_NAME])) := by
  replace hm : d.path ++ [INIT_MODULE_NAME] ∉ d.children := by simpa using hm
  replace h : d.path ++ [INIT_SERVER_NAME] ∈ d.children := by simpa using h
  simp [dirAdopted, hm, h]

theorem dirAdopted_client (g : Nat) (c : Codecs) (imfs : Imfs) (st : SyncNames)
    (d : ImfsDirectory)
    (hm : d.children.contains (d.path ++ [INIT_MODULE_NAME]) = false)
    (hs : d.children.contains (d.path ++ [INIT_SERVER_NAME]) = false)
    (h : d.children.contains (d.path ++ [INIT_CLIENT_NAME]) = true) :
    dirAdopted g c imfs st d =
      imfsGo g c imfs st (.path (d.path ++ [INIT_CLIENT_NAME])) := by
  replace hm : d.path ++ [INIT_MODULE_NAME] ∉ d.children := by simpa using hm
  replace hs : d.path ++ [INIT_SERVER_NAME] ∉ d.children := by simpa using hs
  replace h : d.path ++ [INIT_CLIENT_NAME] ∈ d.children := by simpa using h
  simp [dirAdopted, hm, hs, h]

theorem dirAdopted_folder (g : Nat) (c : Codecs) (imfs : Imfs) (st : SyncNames)
    (d : ImfsDirectory)
    (hm : d.children.contains (d.path ++ [INIT_MODULE_NAME]) = false)
    (hs : d.children.contains (d.path ++ [INIT_SERVER_NAME]) = false)
    (hc : d.children.contains (d.path ++ [INIT_CLIENT_NAME]) = false) :
    dirAdopted g c imfs st d = .ok (some (folderInst d)) := by
  replace hm : d.path ++ [INIT_MODULE_NAME] ∉ d.children := by simpa using hm
  replace hs : d.path ++ [INIT_SERVER_NAME] ∉ d.children := by simpa using hs
  replace hc : d.path ++ [INIT_CLIENT_NAME] ∉ d.children := by simpa using hc
  simp [dirAdopted, hm, hs, hc]

/-- Provenance of the adoption step: either the synthesized folder, or
the projection of a path whose file name is one of the init names. -/
theorem dirAdopted_cases (g : Nat) (c : Codecs) (imfs : Imfs) (st : SyncNames)
    (d : ImfsDirectory) :
    dirAdopted g c imfs st d = .ok (some (folderInst d)) ∨
    ∃ p n, dirAdopted g c imfs st d = imfsGo g c imfs st (.path p) ∧
      pathFileName p = some n ∧
      (n = INIT_MODULE_NAME ∨ n = INIT_SERVER_NAME ∨ n = INIT_CLIENT_NAME) := by
  unfold dirAdopted
  split
  · exact .inr ⟨_, _, rfl, pathFileName_append _ _, .inl rfl⟩
  · split
    · exact .inr ⟨_, _, rfl, pathFileName_append _ _, .inr (.inl rfl)⟩
    · split
      · exact .inr ⟨_, _, rfl, pathFileName_append _ _, .inr (.inr rfl)⟩
      · exact .inl rfl

/-! ### Lemmas about file projection -/

theorem fileDispatch_err (c : Codecs) (f : ImfsFile) (e : SnapshotError)
    (h : fileDispatch c f = .err e) :
    e = .utf8Error f.path ∨ (∃ i, e = .xmlModelDecodeError i f.path) ∨
      (∃ i, e = .binaryModelDecodeError i f.path) := by
  unfold fileDispatch at h
  split at h
  · repeat' split at h
    · exact .inl (snapshot_lua_file_err f e h)
    · exact absurd (snapshot_csv_file_err c f e h) (by simp)
    · exact .inl (snapshot_txt_file_err f e h)
    · exact .inr (.inl (snapshot_xml_model_file_err c f e h))
    · exact .inr (.inr (snapshot_binary_model_file_err c f e h))
    · exact absurd h (by simp)
  · exact absurd h (by simp)

theorem fileDispatch_panics (c : Codecs) (f : ImfsFile) (m : String)
    (h : fileDispatch c f = .panics m) :
    m = "Could not extract file stem" ∨ m = "Malformed localization table found!" ∨
      m = multiRootMsg := by
  unfold fileDispatch at h
  split at h
  · repeat' split at h
    · exact .inl (snapshot_lua_file_panics f m h)
    · rcases snapshot_csv_file_panics c f m h with h' | h'
      · exact .inl h'
      · exact .inr (.inl h')
    · exact .inl (snapshot_txt_file_panics f m h)
    · rcases snapshot_xml_model_file_panics c f m h with h' | h'
      · exact .inl h'
      · exact .inr (.inr h')
    · rcases snapshot_binary_model_file_panics c f m h with h' | h'
      · exact .inl h'
      · exact .inr (.inr h')
    · exact absurd h (by simp)
  · exact absurd h (by simp)

theorem fileDispatch_outOfGas (c : Codecs) (f : ImfsFile)
    (h : fileDispatch c f = .outOfGas) : False := by
  unfold fileDispatch at h
  split at h
  · repeat' split at h
    all_goals
      first
      | exact absurd h (by simp)
      | (unfold snapshot_lua_file snapshot_lua_contents at h; repeat' split at h
         all_goals exact absurd h (by simp))
      | (unfold snapshot_csv_file at h; repeat' split at h
         all_goals exact absurd h (by simp))
      | (unfold snapshot_txt_file at h; repeat' split at h
         all_goals exact absurd h (by simp))
      | (unfold snapshot_xml_model_file at h; repeat' split at h
         all_goals exact absurd h (by simp))
      | (unfold snapshot_binary_model_file at h; repeat' split at h
         all_goals exact absurd h (by simp))
  · exact absurd h (by simp)

theorem fileDispatch_lua (c : Codecs) (f : ImfsFile)
    (hext : pathExtension f.path = some "lua") :
    fileDispatch c f = snapshot_lua_file f := by
  simp [fileDispatch, hext]

theorem snapshot_imfs_file_err (c : Codecs) (st : SyncNames) (f : ImfsFile)
    (e : SnapshotError) (h : snapshot_imfs_file c st f = .err e) :
    e = .utf8Error f.path ∨ (∃ i, e = .xmlModelDecodeError i f.path) ∨
      (∃ i, e = .binaryModelDecodeError i f.path) := by
  unfold snapshot_imfs_file at h
  split at h
  · split at h <;> exact absurd h (by simp)
  · exact fileDispatch_err c f e h

theorem snapshot_imfs_file_panics (c : Codecs) (st : SyncNames) (f : ImfsFile)
    (m : String) (h : snapshot_imfs_file c st f = .panics m) :
    m = "Could not extract file stem" ∨ m = "Malformed localization table found!" ∨
      m = multiRootMsg := by
  unfold snapshot_imfs_file at h
  split at h
  · split at h <;> exact absurd h (by simp)
  · exact fileDispatch_panics c f m h

theorem snapshot_imfs_file_outOfGas (c : Codecs) (st : SyncNames) (f : ImfsFile)
    (h : snapshot_imfs_file c st f = .outOfGas) : False := by
  unfold snapshot_imfs_file at h
  split at h
  · split at h <;> exact absurd h (by simp)
  · exact fileDispatch_outOfGas c f h

/-- An existing `.lua` file never projects to "no instance": the only
decoders that can do so are the two model-file ones. -/
theorem snapshot_imfs_file_lua_not_none (c : Codecs) (st : SyncNames) (f : ImfsFile)
    (hext : pathExtension f.path = some "lua")
    (h : snapshot_imfs_file c st f = .ok none) : False := by
  unfold snapshot_imfs_file at h
  rw [fileDispatch_lua c f hext] at h
  split at h
  · split at h <;> exact absurd h (by simp)
  · obtain ⟨i, hi⟩ := snapshot_lua_file_ok f none h
    exact absurd hi (by simp)

/-- A directory projection never returns "no instance". -/
theorem directory_not_none (gas : Nat) (c : Codecs) (imfs : Imfs) (st : SyncNames)
    (d : ImfsDirectory) (h : imfsGo gas c imfs st (.directory d) = .ok none) : False := by
  cases gas with
  | zero => exact absurd h (by simp [imfsGo])
  | succ g =>
    rw [imfsGo_directory_eq] at h
    unfold dirFinish at h
    split at h
    · split at h
      · obtain ⟨inst, hr, _⟩ := childrenFold_ok g c imfs st _ d.children none h
        exact absurd hr (by simp)
      · split at h
        · obtain ⟨inst, hr, _⟩ := childrenFold_ok g c imfs st _ d.children none h
          exact absurd hr (by simp)
        · exact absurd h (by simp)
    · exact absurd h (by simp)
    · rename_i hns hnn
      exact hnn h

/-- Projecting a path whose file name is one of the three init names
never yields "no instance" on a well-formed filesystem: such a path is
either absent (an error), a directory (always an instance), or a `.lua`
file (always an instance or an error). -/
theorem init_path_not_none (gas : Nat) (c : Codecs) (imfs : Imfs) (st : SyncNames)
    (p : FsPath) (n : String) (hWF : imfs.WF) (hfn : pathFileName p = some n)
    (hn : n = INIT_MODULE_NAME ∨ n = INIT_SERVER_NAME ∨ n = INIT_CLIENT_NAME)
    (h : imfsGo gas c imfs st (.path p) = .ok none) : False := by
  cases gas with
  | zero => exact absurd h (by simp [imfsGo])
  | succ g =>
    rw [imfsGo_path_eq] at h
    split at h
    · rename_i f hget
      have hfp : f.path = p := hWF p (.file f) hget
      have hext : pathExtension f.path = some "lua" := by
        rw [hfp]
        unfold pathExtension
        rw [hfn]
        rcases hn with hn | hn | hn <;> rw [hn] <;> rfl
      exact snapshot_imfs_file_lua_not_none c st f hext h
    · rename_i d hget
      exact directory_not_none g c imfs st d h
    · exact absurd h (by simp)

/-- The walk reports `DidNotExist q` only when `q` is genuinely absent
from the filesystem. -/
theorem imfsGo_didNotExist_absent (c : Codecs) (imfs : Imfs) (st : SyncNames) :
    ∀ (gas : Nat) (req : ImfsReq) (q : FsPath),
    imfsGo gas c imfs st req = .err (.didNotExist q) → imfs.get q = none := by
  intro gas
  induction gas with
  | zero => intro req q h; exact absurd h (by simp [imfsGo])
  | succ g ih =>
    intro req q h
    match req with
    | .path p =>
      rw [imfsGo_path_eq] at h
      split at h
      · rename_i f hget
        rcases snapshot_imfs_file_err c st f _ h with h' | ⟨i, h'⟩ | ⟨i, h'⟩ <;>
          exact absurd h' (by simp)
      · rename_i d hget
        exact ih (.directory d) q h
      · rename_i hget
        injection h with h'
        injection h' with h''
        rw [← h'']
        exact hget
    | .directory d =>
      rw [imfsGo_directory_eq] at h
      unfold dirFinish at h
      split at h
      · split at h
        · exact ih (.childrenFold _ d.children) q h
        · split at h
          · exact ih (.childrenFold _ d.children) q h
          · exact absurd h (by simp)
      · exact absurd h (by simp)
      · rcases dirAdopted_cases g c imfs st d with hfold | ⟨p, n, heq, _, _⟩
        · rw [hfold] at h
          exact absurd h (by simp)
        · rw [heq] at h
          exact ih (.path p) q h
    | .childrenFold snap ps =>
      match ps with
      | [] =>
        rw [imfsGo_childrenFold_nil] at h
        exact absurd h (by simp)
      | p :: rest =>
        rw [imfsGo_childrenFold_cons] at h
        split at h
        · exact absurd h (by simp)
        · split at h
          · exact ih (.childrenFold snap rest) q h
          · split at h
            · exact ih (.childrenFold _ rest) q h
            · exact ih (.childrenFold snap rest) q h
            · exact ih (.path p) q h

/-- On a well-formed filesystem the `unwrap` applied to an adopted init
projection (lines 180-184) can never fire: no walk result is ever the
unwrap panic. -/
theorem imfsGo_no_unwrap_panic (c : Codecs) (imfs : Imfs) (hWF : imfs.WF) :
    ∀ (gas : Nat) (st : SyncNames) (req : ImfsReq),
    imfsGo gas c imfs st req ≠ .panics unwrapMsg := by
  intro gas
  induction gas with
  | zero => intro st req h; exact absurd h (by simp [imfsGo])
  | succ g ih =>
    intro st req h
    match req with
    | .path p =>
      rw [imfsGo_path_eq] at h
      split at h
      · rcases snapshot_imfs_file_panics c st _ _ h with h' | h' | h' <;>
          exact absurd h' (by decide)
      · exact ih st (.directory _) h
      · exact absurd h (by simp)
    | .directory d =>
      rw [imfsGo_directory_eq] at h
      unfold dirFinish at h
      split at h
      · split at h
        · exact ih st (.childrenFold _ d.children) h
        · split at h
          · exact ih st (.childrenFold _ d.children) h
          · injection h with h'
            exact absurd h'.symm (by decide)
      · rename_i hnone
        rcases dirAdopted_cases g c imfs st d with hfold | ⟨p, n, heq, hfn, hn⟩
        · rw [hfold] at hnone
          exact absurd hnone (by simp)
        · rw [heq] at hnone
          exact init_path_not_none g c imfs st p n hWF hfn hn hnone
      · rcases dirAdopted_cases g c imfs st d with hfold | ⟨p, n, heq, hfn, hn⟩
        · rw [hfold] at h
          exact absurd h (by simp)
        · rw [heq] at h
          exact ih st (.path p) h
    | .childrenFold snap ps =>
      match ps with
      | [] =>
        rw [imfsGo_childrenFold_nil] at h
        exact absurd h (by simp)
      | p :: rest =>
        rw [imfsGo_childrenFold_cons] at h
        split at h
        · injection h with h'
          exact absurd h'.symm (by decide)
        · split at h
          · exact ih st (.childrenFold snap rest) h
          · split at h
            · exact ih st (.childrenFold _ rest) h
            · exact ih st (.childrenFold snap rest) h
            · exact ih st (.path p) h

/-! ### Lemmas about manifest projection -/

/-- The projection results of a manifest child list, child by child in
manifest order, threading the sync-point name table left to right:
`ProjectsChildren gas c imfs st cs opts st'` holds when projecting the
named children `cs` starting from table `st` yields exactly the
optional instances `opts` in order and the final table `st'`. -/
inductive ProjectsChildren (gas : Nat) (c : Codecs) (imfs : Imfs) :
    SyncNames → List (String × ProjectNode) → List (Option Inst) → SyncNames → Prop where
  | nil (st : SyncNames) : ProjectsChildren gas c imfs st [] [] st
  | cons {st st1 stFin : SyncNames} {child_name : String} {child_node : ProjectNode}
      {rest : List (String × ProjectNode)} {o : Option Inst} {os : List (Option Inst)}
      (hhead : snapshot_project_node gas c imfs st child_node child_name = .ok o st1)
      (htail : ProjectsChildren gas c imfs st1 rest os stFin) :
      ProjectsChildren gas c imfs st ((child_name, child_node) :: rest) (o :: os) stFin

/-- A successful child loop of an instance node produces exactly the
per-child projection results in manifest order, with the "no instance"
results omitted. -/
theorem instance_children_ok (gas : Nat) (c : Codecs) (imfs : Imfs) :
    ∀ (cs : List (String × ProjectNode)) (st : SyncNames) (kids : List Inst)
      (stFin : SyncNames),
    snapshot_instance_children gas c imfs st cs = .ok kids stFin →
    ∃ opts, ProjectsChildren gas c imfs st cs opts stFin ∧ kids = opts.reduceOption := by
  intro cs
  induction cs with
  | nil =>
    intro st kids stFin h
    unfold snapshot_instance_children at h
    injection h with h1 h2
    exact ⟨[], by rw [← h2]; exact .nil st, by simp [h1]⟩
  | cons hd rest ih =>
    intro st kids stFin h
    obtain ⟨child_name, child_node⟩ := hd
    unfold snapshot_instance_children at h
    split at h
    · rename_i child st1 hhead
      split at h
      · rename_i kids2 st2 htail
        injection h with h1 h2
        obtain ⟨opts, hpc, hred⟩ := ih st1 kids2 stFin (by rw [h2] at htail; exact htail)
        exact ⟨some child :: opts, .cons hhead hpc, by simp [← h1, hred]⟩
      · exact absurd h (by simp)
      · exact absurd h (by simp)
      · exact absurd h (by simp)
    · rename_i st1 hhead
      obtain ⟨opts, hpc, hred⟩ := ih st1 kids stFin h
      exact ⟨none :: opts, .cons hhead hpc, by simp [hred]⟩
    · exact absurd h (by simp)
    · exact absurd h (by simp)
    · exact absurd h (by simp)

/-- A manifest subtree without sync points projects identically under
any two filesystems (joint statement for nodes and child lists, proved
by strong induction on the size of the subtree). -/
theorem noSync_imfs_indep (k : Nat) :
    (∀ (node : ProjectNode), sizeOf node ≤ k → noSyncPoints node = true →
      ∀ (gas : Nat) (c : Codecs) (st : SyncNames) (nm : String) (imfs1 imfs2 : Imfs),
        snapshot_project_node gas c imfs1 st node nm =
          snapshot_project_node gas c imfs2 st node nm)
    ∧ (∀ (cs : List (String × ProjectNode)), sizeOf cs ≤ k → noSyncPointsList cs = true →
      ∀ (gas : Nat) (c : Codecs) (st : SyncNames) (imfs1 imfs2 : Imfs),
        snapshot_instance_children gas c imfs1 st cs =
          snapshot_instance_children gas c imfs2 st cs) := by
  induction k using Nat.strong_induction_on with
  | _ k ih =>
    constructor
    · intro node hsz hns gas c st nm imfs1 imfs2
      match node with
      | .syncPoint p => simp [noSyncPoints] at hns
      | .instanceNode cn cs props md =>
        have hlt : sizeOf cs < sizeOf (ProjectNode.instanceNode cn cs props md) := by
          simp
          omega
        have hns' : noSyncPointsList cs = true := by
          simpa [noSyncPoints] using hns
        have hch := (ih (sizeOf cs) (lt_of_lt_of_le hlt hsz)).2 cs le_rfl hns'
          gas c st imfs1 imfs2
        simp only [snapshot_project_node, snapshot_instance_node]
        rw [hch]
    · intro cs hsz hnsl gas c st imfs1 imfs2
      match cs with
      | [] => simp [snapshot_instance_children]
      | (child_name, child_node) :: rest =>
        have hcons : noSyncPoints child_node = true ∧ noSyncPointsList rest = true := by
          simpa [noSyncPointsList, Bool.and_eq_true] using hnsl
        have hltn : sizeOf child_node < sizeOf ((child_name, child_node) :: rest) := by
          simp
          omega
        have hltr : sizeOf rest < sizeOf ((child_name, child_node) :: rest) := by
          simp
        have hhead := (ih (sizeOf child_node) (lt_of_lt_of_le hltn hsz)).1 child_node
          le_rfl hcons.1 gas c st child_name imfs1 imfs2
        have htail := fun st1 => (ih (sizeOf rest) (lt_of_lt_of_le hltr hsz)).2 rest
          le_rfl hcons.2 gas c st1 imfs1 imfs2
        simp only [snapshot_instance_children]
        rw [hhead]
        cases hres : snapshot_project_node gas c imfs2 st child_node child_name with
        | ok o st1 =>
          cases o with
          | some child => simp only [htail st1]
          | none => simp only [htail st1]
        | err e => rfl
        | panics m => rfl
        | outOfGas => rfl

/-! ### Concrete fixtures used by witnesses and counterexamples -/

/-- A fixed instance returned by the test codecs. -/
def testInst : Inst :=
  { name := "Embedded"
    class_name := "Part"
    properties := []
    children := []
    source_path := none
    metadata := none }

/-- Concrete codecs for witnesses: the model decoders return one copy
of `testInst` per input byte, so 0-, 1- and 2-byte files decode to 0, 1
and 2 roots. -/
def testCodecs : Codecs where
  csvParse := fun _ => some []
  jsonEncode := fun _ => "[]"
  xmlDecode := fun bs => .ok (List.replicate bs.length testInst)
  binDecode := fun bs => .ok (List.replicate bs.length testInst)

/-- A directory containing both a module init and a server init file. -/
def d0 : ImfsDirectory :=
  { path := ["proj"]
    children := [["proj", "init.lua"], ["proj", "init.server.lua"]] }

/-- Filesystem for `d0`: the directory plus its two init files. -/
def imfs0 : Imfs :=
  { items :=
      [(["proj"], .directory d0),
       (["proj", "init.lua"], .file { path := ["proj", "init.lua"], contents := [97] }),
       (["proj", "init.server.lua"],
        .file { path := ["proj", "init.server.lua"], contents := [98] })] }

/-- A sufficient condition for filesystem well-formedness, checkable by
evaluation on concrete filesystems. -/
theorem Imfs.WF_of_entries (imfs : Imfs)
    (h : ∀ e ∈ imfs.items, ImfsItem.path e.2 = e.1) : imfs.WF := by
  intro p item hget
  unfold Imfs.get at hget
  split at hget
  · rename_i e hfind
    injection hget with h'
    have hmem := List.mem_of_find?_eq_some hfind
    have hpred : e.1 = p := by simpa using List.find?_some hfind
    rw [← h', h e hmem, hpred]
  · exact absurd hget (by simp)

/-- Directory with only a module init. -/
def dA : ImfsDirectory := { path := ["a"], children := [[ "a", "init.lua" ]] }

/-- Directory with only a server init. -/
def dB : ImfsDirectory := { path := ["b"], children := [[ "b", "init.server.lua" ]] }

/-- Directory with only a client init. -/
def dC : ImfsDirectory := { path := ["c"], children := [[ "c", "init.client.lua" ]] }

/-- Directory with no init files. -/
def dE : ImfsDirectory := { path := ["e"], children := [] }

/-- Filesystem holding the four directories and their init files. -/
def imfs4 : Imfs :=
  { items :=
      [(["a"], .directory dA),
       (["a", "init.lua"], .file { path := ["a", "init.lua"], contents := [97] }),
       (["b"], .directory dB),
       (["b", "init.server.lua"],
        .file { path := ["b", "init.server.lua"], contents := [98] }),
       (["c"], .directory dC),
       (["c", "init.client.lua"],
        .file { path := ["c", "init.client.lua"], contents := [99] }),
       (["e"], .directory dE)] }

/-! ### The claims -/

/-- C1: the claim says a plain `.lua` file yields a `ModuleScript`
whose name is the file name with the `.lua` extension stripped
(`"foo.lua"` yields `"foo"`).  The source (rbx_snapshot.rs lines
262-268) strips the suffix for `.server.lua` and `.client.lua`, but
the fall-through branch passes the *unstripped* file name, so
`"foo.lua"` yields the name `"foo.lua"`.  The server and client
clauses hold as claimed.  This theorem evaluates the code at the
failing input (contents byte 102 = `"f"`): class and suffix handling
match the claim, the module-script name does not. -/
theorem C1_lua_classification_at_failing_input :
    snapshot_lua_file { path := ["foo.lua"], contents := [102] } =
      .ok (some
        { name := "foo.lua"
          class_name := "ModuleScript"
          properties := [("Source", RbxValue.string "f")]
          children := []
          source_path := some ["foo.lua"]
          metadata := none }) ∧
    snapshot_lua_file { path := ["foo.server.lua"], contents := [102] } =
      .ok (some
        { name := "foo"
          class_name := "Script"
          properties := [("Source", RbxValue.string "f")]
          children := []
          source_path := some ["foo.server.lua"]
          metadata := none }) ∧
    snapshot_lua_file { path := ["foo.client.lua"], contents := [102] } =
      .ok (some
        { name := "foo"
          class_name := "LocalScript"
          properties := [("Source", RbxValue.string "f")]
          children := []
          source_path := some ["foo.client.lua"]
          metadata := none }) :=
  ⟨rfl, rfl, rfl⟩

/-- C2 counterexample: in a directory containing both `init.lua` and
`init.server.lua`, the module init wins, and the losing server init is
*not* "treated as an ordinary file": the directory's children come out
empty even though `init.server.lua` on its own projects to a Script
instance, refuting the claim that the other init files are projected
and appended as children. -/
theorem C2_counterexample_losers_not_children :
    snapshot_imfs_directory 20 testCodecs imfs0 [] d0 =
      .ok (some
        { name := "proj"
          class_name := "ModuleScript"
          properties := [("Source", RbxValue.string "a")]
          children := []
          source_path := some ["proj", "init.lua"]
          metadata := none }) ∧
    snapshot_imfs_path 20 testCodecs imfs0 [] ["proj", "init.server.lua"] =
      .ok (some
        { name := "init"
          class_name := "Script"
          properties := [("Source", RbxValue.string "b")]
          children := []
          source_path := some ["proj", "init.server.lua"]
          metadata := none }) :=
  ⟨rfl, rfl⟩

/-- C2 (amended): the directory adoption follows the full precedence
order — a present module init always wins; with no module init a
present server init wins (in particular over a client init); with
neither, a present client init is adopted — and every child path whose
file name is one of the three init names is skipped entirely by the
child loop: it is neither projected nor appended as a child. -/
theorem C2_init_precedence_and_skip (gas : Nat) (c : Codecs) (imfs : Imfs)
    (st : SyncNames) (d : ImfsDirectory) :
    (d.children.contains (d.path ++ [INIT_MODULE_NAME]) = true →
      snapshot_imfs_directory (gas + 1) c imfs st d =
        dirFinish gas c imfs st d
          (snapshot_imfs_path gas c imfs st (d.path ++ [INIT_MODULE_NAME])))
    ∧ (d.children.contains (d.path ++ [INIT_MODULE_NAME]) = false →
      d.children.contains (d.path ++ [INIT_SERVER_NAME]) = true →
      snapshot_imfs_directory (gas + 1) c imfs st d =
        dirFinish gas c imfs st d
          (snapshot_imfs_path gas c imfs st (d.path ++ [INIT_SERVER_NAME])))
    ∧ (d.children.contains (d.path ++ [INIT_MODULE_NAME]) = false →
      d.children.contains (d.path ++ [INIT_SERVER_NAME]) = false →
      d.children.contains (d.path ++ [INIT_CLIENT_NAME]) = true →
      snapshot_imfs_directory (gas + 1) c imfs st d =
        dirFinish gas c imfs st d
          (snapshot_imfs_path gas c imfs st (d.path ++ [INIT_CLIENT_NAME])))
    ∧ (∀ (snap : Inst) (p : FsPath) (rest : List FsPath) (n : String),
        pathFileName p = some n →
        (n = INIT_MODULE_NAME ∨ n = INIT_SERVER_NAME ∨ n = INIT_CLIENT_NAME) →
        snapshot_imfs_directory_children (gas + 1) c imfs st snap (p :: rest) =
          snapshot_imfs_directory_children gas c imfs st snap rest) := by
  refine ⟨?_, ?_, ?_, ?_⟩
  · intro hm
    rw [snapshot_imfs_directory, imfsGo_directory_eq, dirAdopted_module gas c imfs st d hm]
    rfl
  · intro hm hs
    rw [snapshot_imfs_directory, imfsGo_directory_eq,
      dirAdopted_server gas c imfs st d hm hs]
    rfl
  · intro hm hs hc
    rw [snapshot_imfs_directory, imfsGo_directory_eq,
      dirAdopted_client gas c imfs st d hm hs hc]
    rfl
  · intro snap p rest n hfn hn
    simp only [snapshot_imfs_directory_children, imfsGo_childrenFold_cons, hfn]
    rw [if_pos hn]

/-- A directory containing only the server and client init files — the
tie between them must go to the server init. -/
def dSC : ImfsDirectory :=
  { path := ["sc"]
    children := [["sc", "init.server.lua"], ["sc", "init.client.lua"]] }

/-- Filesystem for `dSC`: the directory plus its two init files. -/
def imfsSC : Imfs :=
  { items :=
      [(["sc"], .directory dSC),
       (["sc", "init.server.lua"],
        .file { path := ["sc", "init.server.lua"], contents := [98] }),
       (["sc", "init.client.lua"],
        .file { path := ["sc", "init.client.lua"], contents := [99] })] }

/-- Witness for the amended C2: the module branch on `d0` (module and
server present), the server-over-client tie-break on `dSC`, the client
branch on `dC`, and the init-name skip in the child loop. -/
theorem C2_init_precedence_and_skip_witness :
    (d0.children.contains (d0.path ++ [INIT_MODULE_NAME]) = true ∧
      snapshot_imfs_directory (20 + 1) testCodecs imfs0 [] d0 =
        dirFinish 20 testCodecs imfs0 [] d0
          (snapshot_imfs_path 20 testCodecs imfs0 [] (d0.path ++ [INIT_MODULE_NAME]))) ∧
    (dSC.children.contains (dSC.path ++ [INIT_MODULE_NAME]) = false ∧
      dSC.children.contains (dSC.path ++ [INIT_SERVER_NAME]) = true ∧
      snapshot_imfs_directory (20 + 1) testCodecs imfsSC [] dSC =
        dirFinish 20 testCodecs imfsSC [] dSC
          (snapshot_imfs_path 20 testCodecs imfsSC [] (dSC.path ++ [INIT_SERVER_NAME]))) ∧
    (dC.children.contains (dC.path ++ [INIT_MODULE_NAME]) = false ∧
      dC.children.contains (dC.path ++ [INIT_SERVER_NAME]) = false ∧
      dC.children.contains (dC.path ++ [INIT_CLIENT_NAME]) = true ∧
      snapshot_imfs_directory (20 + 1) testCodecs imfs4 [] dC =
        dirFinish 20 testCodecs imfs4 [] dC
          (snapshot_imfs_path 20 testCodecs imfs4 [] (dC.path ++ [INIT_CLIENT_NAME]))) ∧
    (pathFileName ["proj", "init.server.lua"] = some "init.server.lua" ∧
      snapshot_imfs_directory_children (20 + 1) testCodecs imfs0 [] testInst
          [["proj", "init.server.lua"]] =
        snapshot_imfs_directory_children 20 testCodecs imfs0 [] testInst []) :=
  ⟨⟨by decide,
    (C2_init_precedence_and_skip 20 testCodecs imfs0 [] d0).1 (by decide)⟩,
   ⟨by decide, by decide,
    (C2_init_precedence_and_skip 20 testCodecs imfsSC [] dSC).2.1
      (by decide) (by decide)⟩,
   ⟨by decide, by decide, by decide,
    (C2_init_precedence_and_skip 20 testCodecs imfs4 [] dC).2.2.1
      (by decide) (by decide) (by decide)⟩,
   ⟨rfl,
    (C2_init_precedence_and_skip 20 testCodecs imfs0 [] d0).2.2.2 testInst
      ["proj", "init.server.lua"] [] "init.server.lua" rfl (by decide)⟩⟩

/-- When the table has no entry for the file's path, file projection
returns the dispatch result unchanged: the name-override block at
lines 245-249 is a no-op. -/
theorem snapshot_imfs_file_no_override (c : Codecs) (st : SyncNames) (f : ImfsFile)
    (hnone : syncNamesGet st f.path = none) :
    snapshot_imfs_file c st f = fileDispatch c f := by
  unfold snapshot_imfs_file
  cases hd : fileDispatch c f with
  | ok o =>
    cases o with
    | some snapshot => simp [hnone]
    | none => rfl
  | err e => rfl
  | panics m => rfl
  | outOfGas => rfl

/-- When the table has an entry for the file's path, any instance file
projection returns carries the entry as its name (lines 245-249). -/
theorem snapshot_imfs_file_override_name (c : Codecs) (st : SyncNames) (f : ImfsFile)
    (n : String) (hsome : syncNamesGet st f.path = some n) (inst : Inst)
    (h : snapshot_imfs_file c st f = .ok (some inst)) : inst.name = n := by
  unfold snapshot_imfs_file at h
  split at h
  · rename_i snapshot
    split at h
    · rename_i actual hget
      rw [hsome] at hget
      injection hget with hna
      simp only [SnapResult.ok.injEq, Option.some.injEq] at h
      rw [← h]
      exact hna.symm
    · rename_i hget
      rw [hget] at hsome
      exact absurd hsome (by simp)
  · rename_i hns
    exact absurd h (hns inst)

/-- C3: when a sync point's subtree projection yields an instance, the
sync-point node overwrites its name with the manifest-supplied
`instance_name` and records the override in the table that is returned
*after* the subtree was projected (the subtree projection used the
table `st` without the entry); the recorded entry is visible at the
sync point's path; any directory or file projection of that path run
with the post-insertion table observes the override name, while one
run with the pre-insertion table (no entry present) does not: a
directory derives its name from the last path component, and a file
projection returns its dispatch result with the decoder-produced name
untouched. -/
theorem C3_sync_point_override_timing (gas : Nat) (c : Codecs) (imfs : Imfs)
    (st : SyncNames) (path : FsPath) (instance_name : String) :
    (∀ s, snapshot_imfs_path gas c imfs st path = .ok (some s) →
      snapshot_sync_point_node gas c imfs st path instance_name =
        .ok (some { s with name := instance_name })
          (syncNamesInsert st path instance_name))
    ∧ syncNamesGet (syncNamesInsert st path instance_name) path = some instance_name
    ∧ (∀ (gas' : Nat) (d : ImfsDirectory) (inst : Inst), d.path = path →
        snapshot_imfs_directory gas' c imfs (syncNamesInsert st path instance_name) d =
          .ok (some inst) →
        inst.name = instance_name)
    ∧ (∀ (f : ImfsFile) (inst : Inst), f.path = path →
        snapshot_imfs_file c (syncNamesInsert st path instance_name) f =
          .ok (some inst) →
        inst.name = instance_name)
    ∧ (syncNamesGet st path = none →
        (∀ (gas' : Nat) (d : ImfsDirectory) (inst : Inst), d.path = path →
          snapshot_imfs_directory gas' c imfs st d = .ok (some inst) →
          pathFileName path = some inst.name)
        ∧ (∀ (f : ImfsFile), f.path = path →
          snapshot_imfs_file c st f = fileDispatch c f)) := by
  have hins : syncNamesGet (syncNamesInsert st path instance_name) path =
      some instance_name := by
    simp [syncNamesGet, syncNamesInsert]
  refine ⟨?_, hins, ?_, ?_, ?_⟩
  · intro s hs
    simp [snapshot_sync_point_node, hs]
  · intro gas' d inst hdp hres
    cases gas' with
    | zero => exact absurd hres (by simp [snapshot_imfs_directory, imfsGo])
    | succ g =>
      rw [snapshot_imfs_directory, imfsGo_directory_eq] at hres
      obtain ⟨ii, inst', _, hr, _, _, _, _, _, hname⟩ :=
        dirFinish_ok g c imfs _ d _ _ hres
      have hinst : inst' = inst := by injection hr with h'; exact h'.symm
      rcases hname with ⟨n, hget, hn⟩ | ⟨hget, _⟩
      · rw [hdp, hins] at hget
        injection hget with h'
        rw [← hinst, hn, ← h']
      · rw [hdp, hins] at hget
        exact absurd hget (by simp)
  · intro f inst hfp h
    refine snapshot_imfs_file_override_name c _ f instance_name ?_ inst h
    rw [hfp]
    exact hins
  · intro hnone
    constructor
    · intro gas' d inst hdp hres
      cases gas' with
      | zero => exact absurd hres (by simp [snapshot_imfs_directory, imfsGo])
      | succ g =>
        rw [snapshot_imfs_directory, imfsGo_directory_eq] at hres
        obtain ⟨ii, inst', _, hr, _, _, _, _, _, hname⟩ :=
          dirFinish_ok g c imfs _ d _ _ hres
        have hinst : inst' = inst := by injection hr with h'; exact h'.symm
        rcases hname with ⟨n, hget, _⟩ | ⟨_, hfn⟩
        · rw [hdp, hnone] at hget
          exact absurd hget (by simp)
        · rw [hdp] at hfn
          rw [← hinst]
          exact hfn
    · intro f hfp
      refine snapshot_imfs_file_no_override c st f ?_
      rw [hfp]
      exact hnone

/-- C4: the directory projection checks the module init first, then the
server init, then the client init; whichever is found first has its
projection's class name, property bag and children adopted wholesale
(the remaining ordinary children are appended after the adopted ones);
a directory containing none of the three synthesizes a Folder with an
empty property bag and `source_path` set to the directory's path. -/
theorem C4_directory_init_adoption (gas : Nat) (c : Codecs) (imfs : Imfs)
    (st : SyncNames) (d : ImfsDirectory) :
    (∀ ii r, d.children.contains (d.path ++ [INIT_MODULE_NAME]) = true →
      snapshot_imfs_path gas c imfs st (d.path ++ [INIT_MODULE_NAME]) = .ok (some ii) →
      snapshot_imfs_directory (gas + 1) c imfs st d = .ok r →
      ∃ inst, r = some inst ∧ inst.class_name = ii.class_name ∧
        inst.properties = ii.properties ∧ ∃ extra, inst.children = ii.children ++ extra)
    ∧ (∀ ii r, d.children.contains (d.path ++ [INIT_MODULE_NAME]) = false →
      d.children.contains (d.path ++ [INIT_SERVER_NAME]) = true →
      snapshot_imfs_path gas c imfs st (d.path ++ [INIT_SERVER_NAME]) = .ok (some ii) →
      snapshot_imfs_directory (gas + 1) c imfs st d = .ok r →
      ∃ inst, r = some inst ∧ inst.class_name = ii.class_name ∧
        inst.properties = ii.properties ∧ ∃ extra, inst.children = ii.children ++ extra)
    ∧ (∀ ii r, d.children.contains (d.path ++ [INIT_MODULE_NAME]) = false →
      d.children.contains (d.path ++ [INIT_SERVER_NAME]) = false →
      d.children.contains (d.path ++ [INIT_CLIENT_NAME]) = true →
      snapshot_imfs_path gas c imfs st (d.path ++ [INIT_CLIENT_NAME]) = .ok (some ii) →
      snapshot_imfs_directory (gas + 1) c imfs st d = .ok r →
      ∃ inst, r = some inst ∧ inst.class_name = ii.class_name ∧
        inst.properties = ii.properties ∧ ∃ extra, inst.children = ii.children ++ extra)
    ∧ (∀ r, d.children.contains (d.path ++ [INIT_MODULE_NAME]) = false →
      d.children.contains (d.path ++ [INIT_SERVER_NAME]) = false →
      d.children.contains (d.path ++ [INIT_CLIENT_NAME]) = false →
      snapshot_imfs_directory (gas + 1) c imfs st d = .ok r →
      ∃ inst, r = some inst ∧ inst.class_name = "Folder" ∧
        inst.properties = [] ∧ inst.source_path = some d.path) := by
  have main : ∀ (adopted : SnapResult) (ii : Inst) (r : Option Inst),
      dirAdopted gas c imfs st d = adopted → adopted = .ok (some ii) →
      snapshot_imfs_directory (gas + 1) c imfs st d = .ok r →
      ∃ inst, r = some inst ∧ inst.class_name = ii.class_name ∧
        inst.properties = ii.properties ∧ inst.source_path = ii.source_path ∧
        ∃ extra, inst.children = ii.children ++ extra := by
    intro adopted ii r hado hok hres
    rw [snapshot_imfs_directory, imfsGo_directory_eq] at hres
    obtain ⟨ii', inst, hado', hr, hc, hp, hsp, _, hkids, _⟩ :=
      dirFinish_ok gas c imfs st d _ r hres
    rw [hado, hok] at hado'
    have hii : ii = ii' := by simpa using hado'
    exact ⟨inst, hr, by rw [hc, ← hii], by rw [hp, ← hii], by rw [hsp, ← hii],
      by rw [← hii] at hkids; exact hkids⟩
  refine ⟨?_, ?_, ?_, ?_⟩
  · intro ii r hm hii hres
    obtain ⟨inst, hr, hc, hp, _, hext⟩ :=
      main _ ii r (dirAdopted_module gas c imfs st d hm) hii hres
    exact ⟨inst, hr, hc, hp, hext⟩
  · intro ii r hm hs hii hres
    obtain ⟨inst, hr, hc, hp, _, hext⟩ :=
      main _ ii r (dirAdopted_server gas c imfs st d hm hs) hii hres
    exact ⟨inst, hr, hc, hp, hext⟩
  · intro ii r hm hs hc' hii hres
    obtain ⟨inst, hr, hc, hp, _, hext⟩ :=
      main _ ii r (dirAdopted_client gas c imfs st d hm hs hc') hii hres
    exact ⟨inst, hr, hc, hp, hext⟩
  · intro r hm hs hc' hres
    obtain ⟨inst, hr, hc, hp, hsp, _⟩ :=
      main _ (folderInst d) r (dirAdopted_folder gas c imfs st d hm hs hc') rfl hres
    exact ⟨inst, hr, hc, hp, hsp⟩

/-- C5: whenever a directory projection yields an instance, its final
name is the sync-point override recorded for the directory's path when
one is present, and the last component of the directory's path
otherwise — unconditionally, whatever name the adopted init projection
produced. -/
theorem C5_directory_name_resolution (gas : Nat) (c : Codecs) (imfs : Imfs)
    (st : SyncNames) (d : ImfsDirectory) (inst : Inst)
    (h : snapshot_imfs_directory gas c imfs st d = .ok (some inst)) :
    (∃ n, syncNamesGet st d.path = some n ∧ inst.name = n) ∨
      (syncNamesGet st d.path = none ∧ pathFileName d.path = some inst.name) := by
  cases gas with
  | zero => exact absurd h (by simp [snapshot_imfs_directory, imfsGo])
  | succ g =>
    rw [snapshot_imfs_directory, imfsGo_directory_eq] at h
    obtain ⟨ii, inst', _, hr, _, _, _, _, _, hname⟩ :=
      dirFinish_ok g c imfs st d _ _ h
    have hinst : inst' = inst := by injection hr with h'; exact h'.symm
    rw [hinst] at hname
    exact hname

/-- An empty directory at path `["d"]`. -/
def dW : ImfsDirectory := { path := ["d"], children := [] }

/-- Filesystem holding only `dW`. -/
def imfsW : Imfs := { items := [(["d"], .directory dW)] }

/-- The instance `dW` projects to before any override. -/
def instD : Inst :=
  { name := "d"
    class_name := "Folder"
    properties := []
    children := []
    source_path := some ["d"]
    metadata := none }

/-- `instD` renamed by a sync point. -/
def instGame : Inst :=
  { name := "Game"
    class_name := "Folder"
    properties := []
    children := []
    source_path := some ["d"]
    metadata := none }

/-- A text file fixture. -/
def fTxt : ImfsFile := { path := ["n.txt"], contents := [104] }

/-- The projection of `fTxt` renamed by a sync-point override. -/
def instData : Inst :=
  { name := "Data"
    class_name := "StringValue"
    properties := [("Value", RbxValue.string "h")]
    children := []
    source_path := some ["n.txt"]
    metadata := none }

/-- Witness for C3: the sync-point equation and recorded entry on the
directory `dW`, the directory- and file-level override observations
with the post-insertion table, and the no-override behaviours of both
with the pre-insertion table. -/
theorem C3_witness :
    snapshot_sync_point_node 3 testCodecs imfsW [] ["d"] "Game" =
      .ok (some instGame) (syncNamesInsert [] ["d"] "Game") ∧
    syncNamesGet (syncNamesInsert [] ["d"] "Game") ["d"] = some "Game" ∧
    instGame.name = "Game" ∧
    instData.name = "Data" ∧
    pathFileName ["d"] = some instD.name ∧
    snapshot_imfs_file testCodecs [] fTxt = fileDispatch testCodecs fTxt :=
  ⟨(C3_sync_point_override_timing 3 testCodecs imfsW [] ["d"] "Game").1 instD rfl,
   (C3_sync_point_override_timing 3 testCodecs imfsW [] ["d"] "Game").2.1,
   (C3_sync_point_override_timing 3 testCodecs imfsW [] ["d"] "Game").2.2.1
     3 dW instGame rfl rfl,
   (C3_sync_point_override_timing 3 testCodecs imfsW [] ["n.txt"] "Data").2.2.2.1
     fTxt instData rfl rfl,
   ((C3_sync_point_override_timing 3 testCodecs imfsW [] ["d"] "Game").2.2.2.2
     rfl).1 3 dW instD rfl rfl,
   ((C3_sync_point_override_timing 3 testCodecs imfsW [] ["n.txt"] "Data").2.2.2.2
     rfl).2 fTxt rfl⟩

/-- Witness for C4 on the concrete filesystem `imfs4`, exercising the
module, server, client and no-init branches. -/
theorem C4_witness :
    (∃ inst, (some
        { name := "a", class_name := "ModuleScript"
          properties := [("Source", RbxValue.string "a")], children := []
          source_path := some ["a", "init.lua"], metadata := none } : Option Inst) =
        some inst ∧
      inst.class_name = "ModuleScript" ∧
      inst.properties = [("Source", RbxValue.string "a")] ∧
      ∃ extra, inst.children = [] ++ extra) ∧
    (∃ inst, (some
        { name := "b", class_name := "Script"
          properties := [("Source", RbxValue.string "b")], children := []
          source_path := some ["b", "init.server.lua"], metadata := none } : Option Inst) =
        some inst ∧
      inst.class_name = "Script" ∧
      inst.properties = [("Source", RbxValue.string "b")] ∧
      ∃ extra, inst.children = [] ++ extra) ∧
    (∃ inst, (some
        { name := "c", class_name := "LocalScript"
          properties := [("Source", RbxValue.string "c")], children := []
          source_path := some ["c", "init.client.lua"], metadata := none } : Option Inst) =
        some inst ∧
      inst.class_name = "LocalScript" ∧
      inst.properties = [("Source", RbxValue.string "c")] ∧
      ∃ extra, inst.children = [] ++ extra) ∧
    (∃ inst, (some
        { name := "e", class_name := "Folder", properties := [], children := []
          source_path := some ["e"], metadata := none } : Option Inst) = some inst ∧
      inst.class_name = "Folder" ∧ inst.properties = [] ∧
      inst.source_path = some ["e"]) :=
  ⟨(C4_directory_init_adoption 10 testCodecs imfs4 [] dA).1
      { name := "init.lua", class_name := "ModuleScript"
        properties := [("Source", RbxValue.string "a")], children := []
        source_path := some ["a", "init.lua"], metadata := none } _
      (by decide) rfl rfl,
   (C4_directory_init_adoption 10 testCodecs imfs4 [] dB).2.1
      { name := "init", class_name := "Script"
        properties := [("Source", RbxValue.string "b")], children := []
        source_path := some ["b", "init.server.lua"], metadata := none } _
      (by decide) (by decide) rfl rfl,
   (C4_directory_init_adoption 10 testCodecs imfs4 [] dC).2.2.1
      { name := "init", class_name := "LocalScript"
        properties := [("Source", RbxValue.string "c")], children := []
        source_path := some ["c", "init.client.lua"], metadata := none } _
      (by decide) (by decide) (by decide) rfl rfl,
   (C4_directory_init_adoption 10 testCodecs imfs4 [] dE).2.2.2 _
      (by decide) (by decide) (by decide) rfl⟩

/-- Witness for C5: the same directory projected without and with a
sync-point override for its path. -/
theorem C5_witness :
    ((∃ n, syncNamesGet [] dW.path = some n ∧ instD.name = n) ∨
      (syncNamesGet [] dW.path = none ∧ pathFileName dW.path = some instD.name)) ∧
    ((∃ n, syncNamesGet [(["d"], "Game")] dW.path = some n ∧ instGame.name = n) ∨
      (syncNamesGet [(["d"], "Game")] dW.path = none ∧
        pathFileName dW.path = some instGame.name)) :=
  ⟨C5_directory_name_resolution 3 testCodecs imfsW [] dW instD rfl,
   C5_directory_name_resolution 3 testCodecs imfsW [(["d"], "Game")] dW instGame rfl⟩

/-- C6: for either serialized-tree format, once the codec decodes the
file successfully, zero roots yield "no instance" (not an error),
exactly one root yields that child's subtree with its name forced to
the file's stem regardless of the embedded name, and more than one
root makes the projection fail (the source's unconditional multi-root
panic — multi-root files are unsupported). -/
theorem C6_model_file_root_convention (c : Codecs) (f : ImfsFile) (stem : String)
    (hstem : pathFileStem f.path = some stem) :
    (∀ cs, c.xmlDecode f.contents = .ok cs →
      (cs = [] → snapshot_xml_model_file c f = .ok none) ∧
      (∀ child, cs = [child] →
        snapshot_xml_model_file c f = .ok (some { child with name := stem })) ∧
      (∀ c1 c2 t, cs = c1 :: c2 :: t →
        snapshot_xml_model_file c f = .panics multiRootMsg))
    ∧ (∀ cs, c.binDecode f.contents = .ok cs →
      (cs = [] → snapshot_binary_model_file c f = .ok none) ∧
      (∀ child, cs = [child] →
        snapshot_binary_model_file c f = .ok (some { child with name := stem })) ∧
      (∀ c1 c2 t, cs = c1 :: c2 :: t →
        snapshot_binary_model_file c f = .panics multiRootMsg)) := by
  constructor
  · intro cs hdec
    refine ⟨?_, ?_, ?_⟩
    · intro hnil; subst hnil; simp [snapshot_xml_model_file, hstem, hdec]
    · intro child hone; subst hone; simp [snapshot_xml_model_file, hstem, hdec]
    · intro c1 c2 t htwo; subst htwo; simp [snapshot_xml_model_file, hstem, hdec]
  · intro cs hdec
    refine ⟨?_, ?_, ?_⟩
    · intro hnil; subst hnil; simp [snapshot_binary_model_file, hstem, hdec]
    · intro child hone; subst hone; simp [snapshot_binary_model_file, hstem, hdec]
    · intro c1 c2 t htwo; subst htwo; simp [snapshot_binary_model_file, hstem, hdec]

/-- Witness for C6: with `testCodecs` a 0-byte, 1-byte and 2-byte model
file decode to zero, one and two roots respectively. -/
theorem C6_witness :
    snapshot_xml_model_file testCodecs { path := ["m.rbxmx"], contents := [] } = .ok none ∧
    snapshot_xml_model_file testCodecs { path := ["m.rbxmx"], contents := [0] } =
      .ok (some { testInst with name := "m" }) ∧
    snapshot_binary_model_file testCodecs { path := ["m.rbxm"], contents := [0, 0] } =
      .panics multiRootMsg :=
  ⟨((C6_model_file_root_convention testCodecs { path := ["m.rbxmx"], contents := [] }
      "m" rfl).1 [] rfl).1 rfl,
   ((C6_model_file_root_convention testCodecs { path := ["m.rbxmx"], contents := [0] }
      "m" rfl).1 [testInst] rfl).2.1 testInst rfl,
   ((C6_model_file_root_convention testCodecs { path := ["m.rbxm"], contents := [0, 0] }
      "m" rfl).2 [testInst, testInst] rfl).2.2 testInst testInst [] rfl⟩

/-- C7: filesystem path projection returns `DidNotExist` carrying
exactly the requested path precisely when the filesystem has no item at
that path; when an item exists it dispatches to file or directory
projection according to the item variant. -/
theorem C7_path_projection_dispatch (gas : Nat) (c : Codecs) (imfs : Imfs)
    (st : SyncNames) (p : FsPath) :
    (snapshot_imfs_path (gas + 1) c imfs st p = .err (.didNotExist p) ↔
      imfs.get p = none)
    ∧ (∀ f, imfs.get p = some (.file f) →
        snapshot_imfs_path (gas + 1) c imfs st p = snapshot_imfs_file c st f)
    ∧ (∀ d, imfs.get p = some (.directory d) →
        snapshot_imfs_path (gas + 1) c imfs st p = snapshot_imfs_directory gas c imfs st d) := by
  refine ⟨⟨?_, ?_⟩, ?_, ?_⟩
  · intro h
    exact imfsGo_didNotExist_absent c imfs st (gas + 1) (.path p) p h
  · intro h
    rw [snapshot_imfs_path, imfsGo_path_eq, h]
  · intro f h
    rw [snapshot_imfs_path, imfsGo_path_eq, h]
  · intro d h
    rw [snapshot_imfs_path, imfsGo_path_eq, h]
    rfl

/-- Filesystem with one file, one directory, and nothing else. -/
def imfs7 : Imfs :=
  { items := [(["n.txt"], .file fTxt), (["d"], .directory dW)] }

/-- Witness for C7: both directions of the absence equivalence, plus
the file and directory dispatch cases, on `imfs7`. -/
theorem C7_witness :
    imfs7.get ["x"] = none ∧
    snapshot_imfs_path (2 + 1) testCodecs imfs7 [] ["x"] = .err (.didNotExist ["x"]) ∧
    snapshot_imfs_path (2 + 1) testCodecs imfs7 [] ["n.txt"] =
      snapshot_imfs_file testCodecs [] fTxt ∧
    snapshot_imfs_path (2 + 1) testCodecs imfs7 [] ["d"] =
      snapshot_imfs_directory 2 testCodecs imfs7 [] dW :=
  ⟨(C7_path_projection_dispatch 2 testCodecs imfs7 [] ["x"]).1.mp rfl,
   (C7_path_projection_dispatch 2 testCodecs imfs7 [] ["x"]).1.mpr rfl,
   (C7_path_projection_dispatch 2 testCodecs imfs7 [] ["n.txt"]).2.1 fTxt rfl,
   (C7_path_projection_dispatch 2 testCodecs imfs7 [] ["d"]).2.2 dW rfl⟩

/-- C8: a file whose extension is not exactly one of the five
recognized ones (or which has no extension) projects to "no instance",
never to an error, so it cannot appear in any output tree. -/
theorem C8_unrecognized_extension_ignored (c : Codecs) (st : SyncNames) (f : ImfsFile)
    (h : ∀ e, pathExtension f.path = some e →
      e ≠ "lua" ∧ e ≠ "csv" ∧ e ≠ "txt" ∧ e ≠ "rbxmx" ∧ e ≠ "rbxm") :
    snapshot_imfs_file c st f = .ok none := by
  have hfd : fileDispatch c f = .ok none := by
    unfold fileDispatch
    split
    · rename_i e hext
      obtain ⟨h1, h2, h3, h4, h5⟩ := h e hext
      simp [h1, h2, h3, h4, h5]
    · rfl
  simp [snapshot_imfs_file, hfd]

/-- Witness for C8: a `.png` file and an extension-less file. -/
theorem C8_witness :
    snapshot_imfs_file testCodecs [] { path := ["img.png"], contents := [1, 2] } =
      .ok none ∧
    snapshot_imfs_file testCodecs [] { path := ["README"], contents := [3] } =
      .ok none :=
  ⟨C8_unrecognized_extension_ignored testCodecs [] _ (fun e he => by
      have he' : (some "png" : Option String) = some e := he
      injection he' with h''
      subst h''
      decide),
   C8_unrecognized_extension_ignored testCodecs [] _ (fun e he => by
      have he' : (none : Option String) = some e := he
      exact absurd he' (by simp))⟩

/-- C9: projecting a manifest instance node yields an instance named by
the supplied `instance_name`, carrying the node's class name, property
bag and metadata, whose children are exactly the projections of the
node's named children in manifest order with "no instance" results
omitted; and a manifest subtree containing no sync points projects
identically under any two filesystems. -/
theorem C9_instance_node_projection (gas : Nat) (c : Codecs) (imfs : Imfs)
    (st : SyncNames) (class_name : String) (children : List (String × ProjectNode))
    (props : List (String × RbxValue)) (md : InstanceMetadata) (nm : String) :
    (∀ kids stFin,
      snapshot_instance_children gas c imfs st children = .ok kids stFin →
      snapshot_project_node gas c imfs st (.instanceNode class_name children props md) nm =
        .ok (some
          { name := nm
            class_name := class_name
            properties := props
            children := kids
            source_path := none
            metadata := some md }) stFin
      ∧ ∃ opts, ProjectsChildren gas c imfs st children opts stFin ∧
          kids = opts.reduceOption)
    ∧ (∀ (node : ProjectNode) (nm2 : String) (imfs2 : Imfs), noSyncPoints node = true →
        snapshot_project_node gas c imfs st node nm2 =
          snapshot_project_node gas c imfs2 st node nm2) := by
  constructor
  · intro kids stFin h
    refine ⟨?_, instance_children_ok gas c imfs children st kids stFin h⟩
    simp only [snapshot_project_node, snapshot_instance_node, h]
  · intro node nm2 imfs2 hns
    exact (noSync_imfs_indep (sizeOf node)).1 node le_rfl hns gas c st nm2 imfs imfs2

/-- Manifest metadata fixture. -/
def mdW : InstanceMetadata := { blob := "meta" }

/-- A single named manifest child. -/
def csW : List (String × ProjectNode) := [("A", .instanceNode "Folder" [] [] mdW)]

/-- The projection of the child in `csW`. -/
def iA : Inst :=
  { name := "A"
    class_name := "Folder"
    properties := []
    children := []
    source_path := none
    metadata := some mdW }

/-- Witness for C9: a one-child instance node, and imfs-independence of
a sync-free node across the two concrete filesystems. -/
theorem C9_witness :
    (snapshot_project_node 1 testCodecs imfsW []
        (.instanceNode "Model" csW [("P", RbxValue.string "v")] mdW) "Root" =
      .ok (some
        { name := "Root"
          class_name := "Model"
          properties := [("P", RbxValue.string "v")]
          children := [iA]
          source_path := none
          metadata := some mdW }) []
      ∧ ∃ opts, ProjectsChildren 1 testCodecs imfsW [] csW opts [] ∧
          [iA] = opts.reduceOption) ∧
    snapshot_project_node 1 testCodecs imfsW [] (.instanceNode "Folder" [] [] mdW) "N" =
      snapshot_project_node 1 testCodecs imfs4 [] (.instanceNode "Folder" [] [] mdW) "N" :=
  ⟨(C9_instance_node_projection 1 testCodecs imfsW [] "Model" csW
      [("P", RbxValue.string "v")] mdW "Root").1 [iA] []
      (by simp [csW, iA, snapshot_instance_children, snapshot_project_node,
        snapshot_instance_node]),
   (C9_instance_node_projection 1 testCodecs imfsW [] "Model" csW
      [("P", RbxValue.string "v")] mdW "Root").2 (.instanceNode "Folder" [] [] mdW)
      "N" imfs4 (by simp [noSyncPoints, noSyncPointsList])⟩

/-- C10: the lua, txt and csv decoders always produce an instance when
they return successfully (only the two model-file decoders can yield
"no instance"); consequently, on a well-formed filesystem the
unconditional `unwrap` of an adopted init-file projection in the
directory case never panics. -/
theorem C10_decoders_total_unwrap_safe :
    (∀ (f : ImfsFile) (r : Option Inst), snapshot_lua_file f = .ok r → ∃ i, r = some i)
    ∧ (∀ (f : ImfsFile) (r : Option Inst), snapshot_txt_file f = .ok r → ∃ i, r = some i)
    ∧ (∀ (c : Codecs) (f : ImfsFile) (r : Option Inst),
        snapshot_csv_file c f = .ok r → ∃ i, r = some i)
    ∧ (∀ (gas : Nat) (c : Codecs) (imfs : Imfs) (st : SyncNames) (d : ImfsDirectory),
        imfs.WF → snapshot_imfs_directory gas c imfs st d ≠ .panics unwrapMsg) :=
  ⟨snapshot_lua_file_ok, snapshot_txt_file_ok, snapshot_csv_file_ok,
   fun gas c imfs st d hWF => imfsGo_no_unwrap_panic c imfs hWF gas st (.directory d)⟩

/-- Witness for C10: each decoder at a concrete successful input, and
the unwrap-safety of a directory projection on `imfs4`. -/
theorem C10_witness :
    (∃ i, (some
      { name := "s.lua", class_name := "ModuleScript"
        properties := [("Source", RbxValue.string "f")], children := []
        source_path := some ["s.lua"], metadata := none } : Option Inst) = some i) ∧
    (∃ i, (some
      { name := "t", class_name := "StringValue"
        properties := [("Value", RbxValue.string "h")], children := []
        source_path := some ["t.txt"], metadata := none } : Option Inst) = some i) ∧
    (∃ i, (some
      { name := "l", class_name := "LocalizationTable"
        properties := [("Contents", RbxValue.string "[]")], children := []
        source_path := some ["l.csv"], metadata := none } : Option Inst) = some i) ∧
    snapshot_imfs_directory 5 testCodecs imfs4 [] dA ≠ .panics unwrapMsg :=
  ⟨C10_decoders_total_unwrap_safe.1 { path := ["s.lua"], contents := [102] } _ rfl,
   C10_decoders_total_unwrap_safe.2.1 { path := ["t.txt"], contents := [104] } _ rfl,
   C10_decoders_total_unwrap_safe.2.2.1 testCodecs { path := ["l.csv"], contents := [] } _ rfl,
   C10_decoders_total_unwrap_safe.2.2.2 5 testCodecs imfs4 [] dA
     (Imfs.WF_of_entries imfs4 (by decide))⟩
